import Mathlib

/-!
Verification of the balance-accounting and settlement engine of the
aspire-splitwise repository, against its natural-language specification.

The embedding translates the JavaScript source into Lean:
* monetary values (JS `Number`) are modelled as exact rationals `ℚ`;
* a JS object used as a string-keyed accumulator (`userBalances`) is
  modelled as an association list `List (String × ℚ)` whose key order is
  JS insertion order;
* fallible controller actions are modelled with `Except String`;
* the Mongo persistence layer is out of scope: each action is modelled as
  a pure function on the already-loaded document.

Source files embedded:
* `backend/models/Settlement.js` — `calculateGroupSettlements`
  (balance aggregation lines 84–96, settlement generation lines 98–133),
  `markCompleted`, `cancel`, the settlement schema;
* `backend/controllers/expenseController.js` — `createExpense`
  (split calculation lines 198–245), `markSplitAsPaid` (lines 295–334);
* `backend/controllers/authController.js` — `updateSettlementStatus`
  (lines 309–355).
-/

set_option autoImplicit false

namespace AspireSplitwise

/-- The fixed tolerance used by every sum comparison in the source:
`0.01` currency units. -/
def eps : ℚ := 1 / 100

/-! ## Data model (expense schema, `backend/models/Expense` part of Settlement.js) -/

/-- One entry of `expenseSchema.splits`: `{ user, amount, percentage, isPaid }`.
The extra `paid` field models the non-schema JS property assigned by the
expense controller's `markSplitAsPaid` (`split.paid = true`); it is distinct
from the schema field `isPaid` and is `none` on schema-created splits. -/
structure SplitRecord where
  user : String
  amount : ℚ
  percentage : Option ℚ
  isPaid : Bool
  paid : Option Bool
  deriving Repr, DecidableEq

/-- One entry of `expenseSchema.paidByMultiple`: `{ user, amount }`. -/
structure PayerShare where
  user : String
  amount : ℚ
  deriving Repr, DecidableEq

/-- The fields of an expense document that the settlement engine reads:
`amount`, `paidBy`, `paidByMultiple`, `splits`. -/
structure Expense where
  amount : ℚ
  paidBy : String
  paidByMultiple : List PayerShare
  splits : List SplitRecord
  deriving Repr, DecidableEq

/-! ## Balance aggregation (Settlement.js lines 84–96)

`userBalances` is a plain JS object; `userBalances[u] = (userBalances[u] || 0) + d`
either updates the existing key in place or appends a new key at the end
(JS string-key enumeration order is insertion order, which the settlement
loop below depends on via `Object.keys`). -/

/-- `bump m u d` models `m[u] = (m[u] || 0) + d` on a JS object viewed as an
insertion-ordered association list. -/
def bump : List (String × ℚ) → String → ℚ → List (String × ℚ)
  | [], u, d => [(u, d)]
  | (k, v) :: rest, u, d =>
      if k = u then (k, v + d) :: rest else (k, v) :: bump rest u d

/-- Processing of one expense inside the `expenses.forEach` loop:
add `expense.amount` to `paidBy`'s balance, then subtract each
`split.amount` from that split's user. -/
def applyExpense (m : List (String × ℚ)) (e : Expense) : List (String × ℚ) :=
  let m1 := bump m e.paidBy e.amount
  e.splits.foldl (fun acc s => bump acc s.user (-s.amount)) m1

/-- The whole aggregation loop of `calculateGroupSettlements`: fold all
expenses of the group into `userBalances`, starting from the empty object. -/
def calculateBalances (expenses : List Expense) : List (String × ℚ) :=
  expenses.foldl applyExpense []

/-- `userBalances[u]`, i.e. `(userBalances[u] || 0)`: the balance recorded
for `u`, or `0` when `u` is absent. -/
def lookupBalance (m : List (String × ℚ)) (u : String) : ℚ :=
  match m.find? (fun p => p.1 = u) with
  | some p => p.2
  | none => 0

/-- Sum of all values of the balance object. -/
def sumValues (m : List (String × ℚ)) : ℚ :=
  m.foldl (fun acc p => acc + p.2) 0

/-! ## Settlement generation (Settlement.js lines 98–133) -/

/-- The fields of a settlement record produced by the generation loop
(`group` and `currency` are constant per call and omitted). -/
structure SettlementRec where
  fromUser : String
  toUser : String
  amount : ℚ
  deriving Repr, DecidableEq

/-- The inner loop `for (let j = i + 1; ...)`: pair the fixed entry
`(u1, b1)` with every later entry `(u2, b2)`.
`if (balance1 > 0 && balance2 < 0)` pushes `{from: user1, to: user2,
amount: min(balance1, |balance2|)}`; the symmetric branch pushes
`{from: user2, to: user1, amount: min(|balance1|, balance2)}`. -/
def pairSettle (u1 : String) (b1 : ℚ) : List (String × ℚ) → List SettlementRec
  | [] => []
  | (u2, b2) :: tl =>
      (if 0 < b1 ∧ b2 < 0 then [⟨u1, u2, min b1 |b2|⟩]
       else if b1 < 0 ∧ 0 < b2 then [⟨u2, u1, min |b1| b2⟩]
       else []) ++ pairSettle u1 b1 tl

/-- The outer loop `for (let i = 0; ...)` over `Object.keys(userBalances)`.
Balances are never decremented by an emitted settlement. -/
def generateSettlements : List (String × ℚ) → List SettlementRec
  | [] => []
  | (u1, b1) :: rest => pairSettle u1 b1 rest ++ generateSettlements rest

/-- `Settlement.calculateGroupSettlements`: aggregate the group's expenses
into balances, then run the pairwise settlement generation. -/
def calculateGroupSettlements (expenses : List Expense) : List SettlementRec :=
  generateSettlements (calculateBalances expenses)

/-- Sum of amounts of emitted settlements with `toUser == u`. -/
def sumTo (ss : List SettlementRec) (u : String) : ℚ :=
  (ss.filter (fun s => s.toUser = u)).foldl (fun acc s => acc + s.amount) 0

/-- Sum of amounts of emitted settlements with `fromUser == u`. -/
def sumFrom (ss : List SettlementRec) (u : String) : ℚ :=
  (ss.filter (fun s => s.fromUser = u)).foldl (fun acc s => acc + s.amount) 0

/-! ## Spec-side balance aggregator (§4.2 of the specification)

Named with a `Spec` suffix: this definition follows the specification's
words, not the source, and exists only to be compared with
`calculateBalances` above. "For each expense in the group: for each
`(payer, amountPaid)` in `payers`, add `amountPaid` to that payer's
balance. For each `(participant, owedAmount)` in `splits`, subtract
`owedAmount` from that participant's balance." The `payers` set of an
expense is `paidByMultiple` when non-empty, else the single pair
`(paidBy, amount)` (§9: single-payer is a one-element list). -/
def payersOf (e : Expense) : List PayerShare :=
  match e.paidByMultiple with
  | [] => [⟨e.paidBy, e.amount⟩]
  | l => l

/-- Spec-side processing of one expense: credit each payer with its own
`amountPaid`, then debit each split. -/
def applyExpenseSpec (m : List (String × ℚ)) (e : Expense) : List (String × ℚ) :=
  let m1 := (payersOf e).foldl (fun acc p => bump acc p.user p.amount) m
  e.splits.foldl (fun acc s => bump acc s.user (-s.amount)) m1

/-- Spec-side balance aggregation (`computeBalances` of §6). -/
def computeBalancesSpec (expenses : List Expense) : List (String × ℚ) :=
  expenses.foldl applyExpenseSpec []

/-! ## Split calculation on expense creation
(`expenseController.createExpense`, lines 198–245)

The controller receives `amount`, `splitType`, the resolved participant
list `expenseParticipants`, and the request's `customSplits` array, whose
entries carry `userId` together with `percentage` (used by the
`percentage` branch) and `amount` (used by the `custom` branch). On a
failed sum check the controller returns a 400 response before
`expense.save()` is reached, so nothing is persisted; this is modelled by
`Except.error`. -/

/-- One entry of the request's `customSplits` array. -/
structure CustomSplit where
  userId : String
  percentage : ℚ
  amount : ℚ
  deriving Repr, DecidableEq

/-- The three values of `expenseSchema.splitType`. -/
inductive SplitType where
  | equal
  | percentage
  | custom
  deriving Repr, DecidableEq

/-- Sum of the `percentage` fields of `customSplits`
(`customSplits.reduce((sum, split) => sum + split.percentage, 0)`). -/
def pctSum (cs : List CustomSplit) : ℚ :=
  cs.foldl (fun sum s => sum + s.percentage) 0

/-- Sum of the `amount` fields of `customSplits`
(`customSplits.reduce((sum, split) => sum + split.amount, 0)`). -/
def amtSum (cs : List CustomSplit) : ℚ :=
  cs.foldl (fun sum s => sum + s.amount) 0

/-- The split-calculation block of `createExpense` (lines 198–245):
`equal` divides `amount` by the participant count; `percentage` rejects
unless `|sum(percentage) - 100| <= 0.01` and sets each amount to
`amount * percentage / 100`; `custom` rejects unless
`|sum(amount) - amount| <= 0.01` and copies the amounts, deriving
percentages. -/
def computeSplits (amount : ℚ) (splitType : SplitType)
    (expenseParticipants : List String) (customSplits : List CustomSplit) :
    Except String (List SplitRecord) :=
  match splitType with
  | .equal =>
      let splitAmount := amount / (expenseParticipants.length : ℚ)
      .ok (expenseParticipants.map fun userId =>
        ⟨userId, splitAmount, none, false, none⟩)
  | .percentage =>
      if |pctSum customSplits - 100| > eps then
        .error "Percentages must add up to 100%."
      else
        .ok (customSplits.map fun s =>
          ⟨s.userId, amount * s.percentage / 100, some s.percentage, false, none⟩)
  | .custom =>
      if |amtSum customSplits - amount| > eps then
        .error "Custom split amounts must add up to the total expense amount."
      else
        .ok (customSplits.map fun s =>
          ⟨s.userId, s.amount, some (s.amount / amount * 100), false, none⟩)

/-- `createExpense` after participants are resolved: the controller
rejects when no participants were determined, otherwise builds the
expense document and fills its splits; `expense.save()` happens only on
the `.ok` branch, so an `.error` result means no expense is persisted. -/
def createExpense (amount : ℚ) (splitType : SplitType) (paidBy : String)
    (paidByMultiple : List PayerShare) (expenseParticipants : List String)
    (customSplits : List CustomSplit) : Except String Expense :=
  if expenseParticipants.isEmpty then
    .error "No participants specified for expense."
  else
    match computeSplits amount splitType expenseParticipants customSplits with
    | .error e => .error e
    | .ok splits =>
        .ok { amount := amount, paidBy := paidBy,
              paidByMultiple := paidByMultiple, splits := splits }

/-- Sum of the `amount` fields of a computed splits array. -/
def owedSum (splits : List SplitRecord) : ℚ :=
  splits.foldl (fun sum s => sum + s.amount) 0

/-! ## Marking a split as paid
(`expenseController.markSplitAsPaid`, lines 295–334)

`const split = expense.splits.find(s => s.user.toString() === userId);
if (!split) return 404; split.paid = true; await expense.save();`
The controller assigns the non-schema property `paid` on the found
subdocument — not the schema field `isPaid` — and then reports
"Split marked as paid successfully". -/

/-- Set `paid := true` on the first split whose user matches, leaving
every other field (in particular `isPaid`) untouched. -/
def setPaidOnFirst (userId : String) : List SplitRecord → List SplitRecord
  | [] => []
  | s :: tl =>
      if s.user = userId then { s with paid := some true } :: tl
      else s :: setPaidOnFirst userId tl

/-- `markSplitAsPaid` of the expense controller: 404 when no split of
`userId` exists, otherwise assign `paid = true` on the found split and
save. -/
def markSplitAsPaid (e : Expense) (userId : String) : Except String Expense :=
  match e.splits.find? (fun s => s.user = userId) with
  | none => .error "Split not found."
  | some _ => .ok { e with splits := setPaidOnFirst userId e.splits }

/-! ## Settlement documents and status updates
(`settlementSchema`, `markCompleted`, `cancel`;
`authController.updateSettlementStatus`, lines 309–355) -/

/-- `settlementSchema.status` enum: `pending`, `completed`, `cancelled`. -/
inductive SettlementStatus where
  | pending
  | completed
  | cancelled
  deriving Repr, DecidableEq

/-- The fields of a settlement document touched by the status-update
flow. Timestamps carry abstract `Nat` instants. -/
structure Settlement where
  fromUser : String
  toUser : String
  group : String
  amount : ℚ
  status : SettlementStatus
  method : String
  notes : Option String
  completedAt : Option Nat
  deriving Repr, DecidableEq

/-- `settlementSchema.methods.markCompleted`: set status to `completed`
and stamp `completedAt`; no precondition on the current status. -/
def Settlement.markCompleted (s : Settlement) (now : Nat) : Settlement :=
  { s with status := .completed, completedAt := some now }

/-- `settlementSchema.methods.cancel`: set status to `cancelled`; no
precondition on the current status. -/
def Settlement.cancel (s : Settlement) : Settlement :=
  { s with status := .cancelled }

/-- The request body of `updateSettlementStatus`: optional `status`
(restricted to the schema's enum, which Mongoose validation enforces on
save), optional `method`, and `notes` distinguishing absent from
present. -/
structure UpdateBody where
  status : Option SettlementStatus
  method : Option String
  notes : Option (Option String)
  deriving Repr, DecidableEq

/-- `updateSettlementStatus` on the loaded settlement document: reject
with 403 unless the requesting user is `fromUser` or `toUser`; then
assign the supplied fields in order, then run `markCompleted` /
`cancel` when the requested status is `completed` / `cancelled`, and
save. The source contains no check of the current status: no transition
is ever rejected as invalid. -/
def updateSettlementStatus (s : Settlement) (uid : String) (body : UpdateBody)
    (now : Nat) : Except String Settlement :=
  if s.fromUser ≠ uid ∧ s.toUser ≠ uid then
    .error "Access denied."
  else
    let s1 := match body.status with
      | some st => { s with status := st }
      | none => s
    let s2 := match body.method with
      | some m => { s1 with method := m }
      | none => s1
    let s3 := match body.notes with
      | some n => { s2 with notes := n }
      | none => s2
    let s4 := match body.status with
      | some .completed => s3.markCompleted now
      | some .cancelled => s3.cancel
      | _ => s3
    .ok s4

/-! ## Concrete documents used by counterexamples and witnesses -/

/-- Scenario 1 of §8: expense `amount = 300`, payer `A`, equal split over
`{A, B, C}` (each owes 100). -/
def expense300 : Expense :=
  { amount := 300, paidBy := "A", paidByMultiple := [],
    splits := [⟨"A", 100, none, false, none⟩, ⟨"B", 100, none, false, none⟩,
               ⟨"C", 100, none, false, none⟩] }

/-- A two-participant balance object: `A` is owed 100, `B` owes 100. -/
def twoBal : List (String × ℚ) := [("A", 100), ("B", -100)]

/-- A balance object in which every balance is nonzero but within the
0.01 tolerance of zero. -/
def smallBal : List (String × ℚ) := [("A", 1 / 200), ("B", -(1 / 200))]

/-- A multi-payer expense: `A` paid 60 and `B` paid 40 of a 100 expense
split equally between them. -/
def mpExpense : Expense :=
  { amount := 100, paidBy := "A",
    paidByMultiple := [⟨"A", 60⟩, ⟨"B", 40⟩],
    splits := [⟨"A", 50, none, false, none⟩, ⟨"B", 50, none, false, none⟩] }

/-- `expense300` after the controller's mark-split-as-paid for `A`: the
found split carries the ad-hoc `paid` property while `isPaid` is still
`false`. -/
def expense300PaidA : Expense :=
  { amount := 300, paidBy := "A", paidByMultiple := [],
    splits := [⟨"A", 100, none, false, some true⟩, ⟨"B", 100, none, false, none⟩,
               ⟨"C", 100, none, false, none⟩] }

/-- A completed settlement from `A` to `B`. -/
def demoCompleted : Settlement :=
  { fromUser := "A", toUser := "B", group := "G", amount := 50,
    status := .completed, method := "other", notes := none,
    completedAt := some 1 }

/-- A pending settlement from `A` to `B`. -/
def demoPending : Settlement :=
  { fromUser := "A", toUser := "B", group := "G", amount := 50,
    status := .pending, method := "other", notes := none,
    completedAt := none }

/-- A request body asking to cancel a settlement. -/
def cancelBody : UpdateBody :=
  { status := some .cancelled, method := none, notes := none }

/-- A percentage `customSplits` directive summing to 100.01: accepted by
the validator since the difference from 100 is exactly the 0.01
tolerance. -/
def bigPctSplits : List CustomSplit :=
  [⟨"A", 50, 0⟩, ⟨"B", 5001 / 100, 0⟩]

/-- The splits the controller computes for `bigPctSplits` on a 10000
expense. -/
def bigPctResult : List SplitRecord :=
  [⟨"A", 5000, some 50, false, none⟩, ⟨"B", 5001, some (5001 / 100), false, none⟩]

/-- The splits the controller computes for scenario 1's equal split of
300 over three participants. -/
def eqSplits300 : List SplitRecord :=
  [⟨"A", 100, none, false, none⟩, ⟨"B", 100, none, false, none⟩,
   ⟨"C", 100, none, false, none⟩]

/-- A percentage directive summing to exactly 100. -/
def pcs100 : List CustomSplit := [⟨"A", 100, 100⟩]

/-- An expense whose single split over-counts its amount by exactly the
0.01 tolerance: valid in the sense of the per-expense epsilon check. -/
def driftExpense : Expense :=
  { amount := 100, paidBy := "A", paidByMultiple := [],
    splits := [⟨"A", 10001 / 100, none, false, none⟩] }

/-! ## Elementary sum lemmas -/

/-- A `reduce`-style fold of additions equals the initial accumulator
plus the sum of the mapped values. -/
theorem foldl_add_eq_sum {α : Type} (f : α → ℚ) (c : ℚ) (l : List α) :
    l.foldl (fun a x => a + f x) c = c + (l.map f).sum := by
  induction l generalizing c with
  | nil => simp
  | cons hd tl ih => simp [ih, add_assoc]

/-- `owedSum` as a mapped list sum. -/
theorem owedSum_eq (splits : List SplitRecord) :
    owedSum splits = (splits.map SplitRecord.amount).sum := by
  simpa using foldl_add_eq_sum SplitRecord.amount 0 splits

/-- `pctSum` as a mapped list sum. -/
theorem pctSum_eq (cs : List CustomSplit) :
    pctSum cs = (cs.map CustomSplit.percentage).sum := by
  simpa using foldl_add_eq_sum CustomSplit.percentage 0 cs

/-- `amtSum` as a mapped list sum. -/
theorem amtSum_eq (cs : List CustomSplit) :
    amtSum cs = (cs.map CustomSplit.amount).sum := by
  simpa using foldl_add_eq_sum CustomSplit.amount 0 cs

/-- `sumValues` as a mapped list sum. -/
theorem sumValues_eq (m : List (String × ℚ)) :
    sumValues m = (m.map Prod.snd).sum := by
  simpa using foldl_add_eq_sum Prod.snd 0 m

/-- `bump` adds its increment to the total of the balance object. -/
theorem sumValues_bump (m : List (String × ℚ)) (u : String) (d : ℚ) :
    sumValues (bump m u d) = sumValues m + d := by
  induction m with
  | nil => simp [bump, sumValues_eq]
  | cons hd tl ih =>
      obtain ⟨k, v⟩ := hd
      by_cases hk : k = u
      · simp [bump, hk, sumValues_eq, add_assoc, add_comm, add_left_comm]
      · simp only [bump, if_neg hk, sumValues_eq, List.map_cons, List.sum_cons] at *
        rw [ih]
        ring

/-- Debiting every split subtracts the splits' total from the balance
object's total. -/
theorem sumValues_debits (splits : List SplitRecord) (m : List (String × ℚ)) :
    sumValues (splits.foldl (fun acc s => bump acc s.user (-s.amount)) m) =
      sumValues m - owedSum splits := by
  induction splits generalizing m with
  | nil => simp [owedSum]
  | cons hd tl ih =>
      simp only [List.foldl_cons, ih, sumValues_bump, owedSum_eq, List.map_cons,
        List.sum_cons]
      ring

/-- One expense changes the balance object's total by
`amount - owedSum splits`. -/
theorem sumValues_applyExpense (m : List (String × ℚ)) (e : Expense) :
    sumValues (applyExpense m e) = sumValues m + (e.amount - owedSum e.splits) := by
  simp only [applyExpense, sumValues_debits, sumValues_bump]
  ring

/-- Folding a list of expenses changes the balance object's total by the
sum of the per-expense differences. -/
theorem sumValues_foldl (expenses : List Expense) (m : List (String × ℚ)) :
    sumValues (expenses.foldl applyExpense m) =
      sumValues m + (expenses.map fun e => e.amount - owedSum e.splits).sum := by
  induction expenses generalizing m with
  | nil => simp
  | cons hd tl ih =>
      simp only [List.foldl_cons, ih, sumValues_applyExpense, List.map_cons,
        List.sum_cons]
      ring

/-- A list whose entries are all bounded in absolute value has its sum
bounded by length times the bound. -/
theorem abs_sum_le_length_mul (l : List ℚ) (b : ℚ) (h : ∀ x ∈ l, |x| ≤ b) :
    |l.sum| ≤ (l.length : ℚ) * b := by
  induction l with
  | nil => simp
  | cons hd tl ih =>
      have h1 : |hd| ≤ b := h hd (List.mem_cons_self hd tl)
      have h2 : |tl.sum| ≤ (tl.length : ℚ) * b :=
        ih fun x hx => h x (List.mem_cons_of_mem hd hx)
      calc |(hd :: tl).sum| = |hd + tl.sum| := by simp
        _ ≤ |hd| + |tl.sum| := abs_add _ _
        _ ≤ b + (tl.length : ℚ) * b := add_le_add h1 h2
        _ = ((hd :: tl).length : ℚ) * b := by push_cast [List.length_cons]; ring

/-- An entry with balance exactly `0` matches neither branch of the pair
loop. -/
theorem pairSettle_zero (u : String) (rest : List (String × ℚ)) :
    pairSettle u 0 rest = [] := by
  induction rest with
  | nil => rfl
  | cons hd tl ih =>
      obtain ⟨u2, b2⟩ := hd
      simp [pairSettle, ih]

/-- `setPaidOnFirst` never touches the `isPaid` field of any split. -/
theorem setPaidOnFirst_map_isPaid (userId : String) (splits : List SplitRecord) :
    (setPaidOnFirst userId splits).map SplitRecord.isPaid =
      splits.map SplitRecord.isPaid := by
  induction splits with
  | nil => rfl
  | cons hd tl ih =>
      by_cases hu : hd.user = userId
      · simp [setPaidOnFirst, hu]
      · simp [setPaidOnFirst, hu, ih]

/-! ## C1 — settlement conservation -/

/-- C1: the settlement-conservation claim fails on the code. At the
balance object `{A: +100, B: -100}` the generation loop emits the single
settlement `A → B` of 100 (directed from the creditor), so for
participant `A` the net emitted amount `sumTo - sumFrom` is `-100`,
differing from `A`'s balance `+100` by 200, far beyond the 0.01
tolerance. -/
theorem conservation_violated_by_pairwise_matcher :
    generateSettlements twoBal = [⟨"A", "B", 100⟩]
    ∧ sumTo (generateSettlements twoBal) "A"
        - sumFrom (generateSettlements twoBal) "A" = -100
    ∧ lookupBalance twoBal "A" = 100
    ∧ ¬ |sumTo (generateSettlements twoBal) "A"
          - sumFrom (generateSettlements twoBal) "A"
          - lookupBalance twoBal "A"| ≤ eps := by
  norm_num [twoBal, generateSettlements, pairSettle, sumTo, sumFrom,
    lookupBalance, List.filter, List.foldl, List.find?, eps]

/-! ## C2 — settlement direction -/

/-- C2: the direction claim fails on the code. For scenario 1 of §8
(group `{A, B, C}`, one equal-split 300 expense paid by `A`, balances
`A = +200, B = -100, C = -100`) the code emits `A → B` 100 and `A → C`
100 — the creditor `A` (positive balance 200) is the `fromUser` of both
settlements — instead of the specified `B → A` 100 and `C → A` 100. -/
theorem settlements_directed_creditor_to_debtor :
    calculateBalances [expense300] = [("A", 200), ("B", -100), ("C", -100)]
    ∧ calculateGroupSettlements [expense300] = [⟨"A", "B", 100⟩, ⟨"A", "C", 100⟩]
    ∧ calculateGroupSettlements [expense300] ≠ [⟨"B", "A", 100⟩, ⟨"C", "A", 100⟩] := by
  norm_num [expense300, calculateGroupSettlements, calculateBalances, applyExpense,
    bump, generateSettlements, pairSettle, List.foldl,
    (by decide : ¬ ("A" : String) = "B"), (by decide : ¬ ("A" : String) = "C"),
    (by decide : ¬ ("B" : String) = "C"), (by decide : ¬ ("B" : String) = "A"),
    (by decide : ¬ ("C" : String) = "A")]

/-! ## C4 — multi-payer aggregation -/

/-- C4: the multi-payer claim fails on the code. For the expense in which
`A` paid 60 and `B` paid 40 of a 100 total split 50/50, the aggregation
loop reads only `paidBy` and credits the full 100 to `A`, yielding
balances `A = +50, B = -50`; crediting each listed payer with its own
`amountPaid`, as the specification prescribes, yields `A = +10,
B = -10`. -/
theorem multi_payer_full_amount_to_primary :
    lookupBalance (calculateBalances [mpExpense]) "A" = 50
    ∧ lookupBalance (calculateBalances [mpExpense]) "B" = -50
    ∧ lookupBalance (computeBalancesSpec [mpExpense]) "A" = 10
    ∧ lookupBalance (computeBalancesSpec [mpExpense]) "B" = -10 := by
  norm_num [mpExpense, calculateBalances, computeBalancesSpec, applyExpense,
    applyExpenseSpec, payersOf, bump, lookupBalance, List.foldl, List.find?,
    (by decide : ¬ ("A" : String) = "B"), (by decide : ¬ ("B" : String) = "A")]

/-- A constant map sums to length times the constant. -/
theorem sum_map_const {α : Type} (l : List α) (c : ℚ) :
    (l.map fun _ => c).sum = (l.length : ℚ) * c := by
  induction l with
  | nil => simp
  | cons hd tl ih => simp [ih]; ring

/-- The percentage branch's computed amounts sum to
`amount * pctSum / 100`. -/
theorem sum_map_scaled (amount : ℚ) (cs : List CustomSplit) :
    (cs.map fun s => amount * s.percentage / 100).sum =
      amount * pctSum cs / 100 := by
  induction cs with
  | nil => simp [pctSum]
  | cons hd tl ih =>
      simp only [List.map_cons, List.sum_cons, ih, pctSum_eq, List.map_cons,
        List.sum_cons]
      ring

/-! ## C5 — split conservation -/

/-- C5 counterexample: the percentage directive `[(A, 50), (B, 50.01)]`
sums to 100.01, inside the validator's tolerance, so on a 10000 expense
the Split Calculator accepts it; the computed splits sum to 10001, off
by 1 — one hundred times the 0.01 tolerance the claim asserts for all
amounts. -/
theorem percentage_split_drift_exceeds_eps :
    computeSplits 10000 SplitType.percentage ["A", "B"] bigPctSplits =
      Except.ok bigPctResult
    ∧ ¬ |owedSum bigPctResult - 10000| ≤ eps := by
  constructor
  · norm_num [computeSplits, bigPctSplits, bigPctResult, pctSum, eps, List.foldl,
      abs_le]
  · norm_num [bigPctResult, owedSum, eps, List.foldl, abs_le]

/-- C5 amended: the sum of the computed splits equals the amount exactly
for `equal` (with at least one participant), within 0.01 for `custom`,
and within `amount / 10000` for `percentage` — for `percentage` the
deviation scales with the amount and exceeds 0.01 once the amount
exceeds 100 with a tolerance-boundary directive. -/
theorem computeSplits_sum_characterization (amount : ℚ) (st : SplitType)
    (ps : List String) (cs : List CustomSplit) (splits : List SplitRecord)
    (hamt : 0 < amount)
    (hok : computeSplits amount st ps cs = Except.ok splits) :
    (st = SplitType.equal → ps ≠ [] → owedSum splits = amount)
    ∧ (st = SplitType.custom → |owedSum splits - amount| ≤ eps)
    ∧ (st = SplitType.percentage → |owedSum splits - amount| ≤ amount / 10000) := by
  cases st with
  | equal =>
      refine ⟨fun _ hps => ?_, fun hc => by exact absurd hc (by simp), fun hp => by
        exact absurd hp (by simp)⟩
      simp only [computeSplits, Except.ok.injEq] at hok
      subst hok
      rw [owedSum_eq, List.map_map]
      have : (SplitRecord.amount ∘ fun userId =>
          (⟨userId, amount / (ps.length : ℚ), none, false, none⟩ : SplitRecord)) =
          fun _ => amount / (ps.length : ℚ) := rfl
      rw [this, sum_map_const]
      have hn : (ps.length : ℚ) ≠ 0 := by
        have hpos := List.length_pos.mpr hps
        exact Nat.cast_ne_zero.mpr (Nat.pos_iff_ne_zero.mp hpos)
      field_simp
  | percentage =>
      refine ⟨fun he => by exact absurd he (by simp), fun hc => by
        exact absurd hc (by simp), fun _ => ?_⟩
      rw [computeSplits] at hok
      by_cases hg : |pctSum cs - 100| > eps
      · rw [if_pos hg] at hok; exact Except.noConfusion hok
      · rw [if_neg hg] at hok
        simp only [Except.ok.injEq] at hok
        subst hok
        have hle : |pctSum cs - 100| ≤ eps := not_lt.mp hg
        rw [owedSum_eq, List.map_map]
        have hcomp : (SplitRecord.amount ∘ fun s =>
            (⟨s.userId, amount * s.percentage / 100, some s.percentage, false,
              none⟩ : SplitRecord)) =
            fun s : CustomSplit => amount * s.percentage / 100 := rfl
        rw [hcomp, sum_map_scaled]
        have hkey : amount * pctSum cs / 100 - amount =
            (amount / 100) * (pctSum cs - 100) := by ring
        rw [hkey, abs_mul, abs_of_pos (by positivity : 0 < amount / 100)]
        calc amount / 100 * |pctSum cs - 100| ≤ amount / 100 * eps := by
              exact mul_le_mul_of_nonneg_left hle (by positivity)
          _ = amount / 10000 := by rw [eps]; ring
  | custom =>
      refine ⟨fun he => by exact absurd he (by simp), fun _ => ?_, fun hp => by
        exact absurd hp (by simp)⟩
      rw [computeSplits] at hok
      by_cases hg : |amtSum cs - amount| > eps
      · rw [if_pos hg] at hok; exact Except.noConfusion hok
      · rw [if_neg hg] at hok
        simp only [Except.ok.injEq] at hok
        subst hok
        rw [owedSum_eq, List.map_map]
        have hcomp : (SplitRecord.amount ∘ fun s =>
            (⟨s.userId, s.amount, some (s.amount / amount * 100), false,
              none⟩ : SplitRecord)) =
            fun s : CustomSplit => s.amount := rfl
        rw [hcomp, ← amtSum_eq]
        exact not_lt.mp hg

/-- Witness for C5's amended theorem at the equal-split 300 expense of
scenario 1. -/
theorem computeSplits_sum_characterization_witness :
    (SplitType.equal = SplitType.equal → (["A", "B", "C"] : List String) ≠ [] →
        owedSum eqSplits300 = 300)
    ∧ (SplitType.equal = SplitType.custom → |owedSum eqSplits300 - 300| ≤ eps)
    ∧ (SplitType.equal = SplitType.percentage →
        |owedSum eqSplits300 - 300| ≤ 300 / 10000) :=
  computeSplits_sum_characterization 300 SplitType.equal ["A", "B", "C"] []
    eqSplits300 (by norm_num)
    (by norm_num [computeSplits, eqSplits300])

/-! ## C6 — zero-sum of balances -/

/-- C6 counterexample: `driftExpense` is valid (its splits sum to 100.01,
within 0.01 of its 100 amount), yet two copies of it drive the balance
total to -0.02, outside the 0.01 tolerance: per-expense drift
accumulates. -/
theorem balance_sum_drift_two_expenses :
    |owedSum driftExpense.splits - driftExpense.amount| ≤ eps
    ∧ ¬ |sumValues (calculateBalances [driftExpense, driftExpense])| ≤ eps := by
  constructor
  · norm_num [driftExpense, owedSum, eps, List.foldl, abs_le]
  · norm_num [driftExpense, sumValues, calculateBalances, applyExpense, bump,
      eps, List.foldl, abs_le]

/-- C6 amended: for expenses whose splits each sum to their amount within
0.01, the balance values sum to zero within `0.01 * (number of
expenses)`; the bound 0.01 itself holds only for at most one expense (or
when every expense's splits sum exactly). -/
theorem calculateBalances_sum_bound (expenses : List Expense)
    (h : ∀ e ∈ expenses, |owedSum e.splits - e.amount| ≤ eps) :
    |sumValues (calculateBalances expenses)| ≤ (expenses.length : ℚ) * eps := by
  rw [calculateBalances, sumValues_foldl]
  have h0 : sumValues [] = 0 := rfl
  rw [h0, zero_add]
  calc |(expenses.map fun e => e.amount - owedSum e.splits).sum|
      ≤ ((expenses.map fun e => e.amount - owedSum e.splits).length : ℚ) * eps := by
        refine abs_sum_le_length_mul _ eps ?_
        intro x hx
        obtain ⟨e, he, rfl⟩ := List.mem_map.mp hx
        rw [abs_sub_comm]
        exact h e he
    _ = (expenses.length : ℚ) * eps := by rw [List.length_map]

/-- Witness for C6's amended theorem on the single valid expense of
scenario 1. -/
theorem calculateBalances_sum_bound_witness :
    |sumValues (calculateBalances [expense300])| ≤
      (([expense300] : List Expense).length : ℚ) * eps :=
  calculateBalances_sum_bound [expense300]
    (by intro e he
        rcases List.mem_cons.mp he with h1 | h1
        · subst h1; norm_num [expense300, owedSum, eps, List.foldl]
        · exact absurd h1 (List.not_mem_nil e))

/-! ## C7 — percentage validation with atomic rejection -/

/-- Whether `createExpense` reached `expense.save()`: `true` exactly when
an expense document was produced and persisted; on `false` the handler
returned a 400 response first and nothing was written. -/
def isPersisted : Except String Expense → Bool
  | .ok _ => true
  | .error _ => false

/-- C7: with split type `percentage`, `createExpense` persists an expense
exactly when the supplied percentages sum to 100 within 0.01; otherwise
(sums such as 99.5 or 100.5) the request is rejected before
`expense.save()`, so no expense is persisted. -/
theorem createExpense_percentage_validation (amount : ℚ) (paidBy : String)
    (pbm : List PayerShare) (ps : List String) (cs : List CustomSplit)
    (hps : ps ≠ []) :
    isPersisted (createExpense amount SplitType.percentage paidBy pbm ps cs) = true
      ↔ |pctSum cs - 100| ≤ eps := by
  cases ps with
  | nil => exact absurd rfl hps
  | cons hd tl =>
      rw [createExpense]
      simp only [List.isEmpty_cons, Bool.false_eq_true, if_false]
      rw [computeSplits]
      by_cases hg : |pctSum cs - 100| > eps
      · rw [if_pos hg]
        simp only [isPersisted, Bool.false_eq_true, false_iff]
        exact not_le.mpr hg
      · rw [if_neg hg]
        simp only [isPersisted, true_iff]
        exact not_lt.mp hg

/-- Witness for C7: the directive `[(A, 100)]` sums to exactly 100 and is
persisted. -/
theorem createExpense_percentage_validation_witness :
    isPersisted (createExpense 100 SplitType.percentage "A" [] ["A"] pcs100) = true
      ↔ |pctSum pcs100 - 100| ≤ eps :=
  createExpense_percentage_validation 100 "A" [] ["A"] pcs100
    (List.cons_ne_nil "A" [])

/-! ## C3 — terminal-state transitions -/

/-- Status of the settlement held in an update result, `none` on error. -/
def resultStatus : Except String Settlement → Option SettlementStatus
  | .ok s => some s.status
  | .error _ => none

/-- C3 counterexample: cancelling the already-completed settlement
`demoCompleted` does not fail — `updateSettlementStatus` returns the
settlement with its status overwritten to `cancelled`. The source has no
terminal-state check and no `InvalidStateError` anywhere. -/
theorem cancel_of_completed_succeeds :
    demoCompleted.status = SettlementStatus.completed
    ∧ updateSettlementStatus demoCompleted "A" cancelBody 5 =
        Except.ok { demoCompleted with status := SettlementStatus.cancelled } := by
  constructor
  · rfl
  · norm_num [updateSettlementStatus, demoCompleted, cancelBody, Settlement.cancel]

/-- C3 amended: a status update by an involved user always succeeds,
whatever the settlement's current status, and sets the status to the
requested value; no transition is ever rejected (in particular a
completed settlement is freely cancelled). -/
theorem updateStatus_sets_requested_status (s : Settlement) (uid : String)
    (body : UpdateBody) (now : Nat) (st : SettlementStatus)
    (hinv : s.fromUser = uid ∨ s.toUser = uid) (hst : body.status = some st) :
    resultStatus (updateSettlementStatus s uid body now) = some st := by
  obtain ⟨bs, bm, bn⟩ := body
  dsimp only at hst
  subst hst
  have hcond : ¬ (s.fromUser ≠ uid ∧ s.toUser ≠ uid) := by
    rcases hinv with h | h <;> simp [h]
  cases bm <;> cases bn <;> cases st <;>
    simp [updateSettlementStatus, if_neg hcond, resultStatus,
      Settlement.markCompleted, Settlement.cancel]

/-- Witness for C3's amended theorem at the pending settlement
`demoPending`. -/
theorem updateStatus_sets_requested_status_witness :
    resultStatus (updateSettlementStatus demoPending "A" cancelBody 5) =
      some SettlementStatus.cancelled :=
  updateStatus_sets_requested_status demoPending "A" cancelBody 5
    SettlementStatus.cancelled (Or.inl rfl) rfl

/-! ## C8 — empty case of the matcher -/

/-- C8 counterexample: the balance object `{A: +0.005, B: -0.005}` has
every balance zero within the 0.01 tolerance, yet the generation loop —
whose conditions compare strictly against 0 — emits the settlement
`A → B` of 0.005 instead of the empty list. -/
theorem epsilon_zero_balances_emit_settlement :
    |lookupBalance smallBal "A"| ≤ eps
    ∧ |lookupBalance smallBal "B"| ≤ eps
    ∧ generateSettlements smallBal = [⟨"A", "B", 1 / 200⟩] := by
  norm_num [smallBal, lookupBalance, generateSettlements, pairSettle, eps,
    List.find?, abs_neg, abs_of_pos,
    (by decide : ¬ ("A" : String) = "B")]

/-- C8 amended: when every participant's balance is exactly zero the
generation loop emits no settlement (neither strict comparison ever
holds). -/
theorem generateSettlements_all_zero_empty (bal : List (String × ℚ))
    (h : ∀ p ∈ bal, p.2 = 0) : generateSettlements bal = [] := by
  induction bal with
  | nil => rfl
  | cons hd tl ih =>
      obtain ⟨u, b⟩ := hd
      have hb : b = 0 := h (u, b) (List.mem_cons_self _ _)
      subst hb
      simp [generateSettlements, pairSettle_zero,
        ih fun p hp => h p (List.mem_cons_of_mem _ hp)]

/-- Witness for C8's amended theorem on a concrete all-zero balance
object. -/
theorem generateSettlements_all_zero_empty_witness :
    generateSettlements [("A", 0), ("B", 0)] = [] :=
  generateSettlements_all_zero_empty [("A", 0), ("B", 0)]
    (by intro p hp
        rcases List.mem_cons.mp hp with h | hp2
        · simp [h]
        · rcases List.mem_cons.mp hp2 with h | h
          · simp [h]
          · exact absurd h (List.not_mem_nil p))

/-! ## C9 — frame of the settlement status update -/

/-- C9: a successful `updateSettlementStatus` never changes `fromUser`,
`toUser`, `amount` or `group`; the source assigns only `status`,
`method`, `notes` and `completedAt`. -/
theorem updateSettlementStatus_frame (s : Settlement) (uid : String)
    (body : UpdateBody) (now : Nat) (s2 : Settlement)
    (h : updateSettlementStatus s uid body now = Except.ok s2) :
    s2.fromUser = s.fromUser ∧ s2.toUser = s.toUser
      ∧ s2.amount = s.amount ∧ s2.group = s.group := by
  obtain ⟨bs, bm, bn⟩ := body
  by_cases hcond : s.fromUser ≠ uid ∧ s.toUser ≠ uid
  · rw [updateSettlementStatus, if_pos hcond] at h
    exact Except.noConfusion h
  · rw [updateSettlementStatus, if_neg hcond] at h
    rcases bs with _ | st
    · cases bm <;> cases bn <;>
        (simp only [Except.ok.injEq] at h; subst h; simp)
    · cases st <;> cases bm <;> cases bn <;>
        (simp only [Except.ok.injEq] at h; subst h;
         simp [Settlement.markCompleted, Settlement.cancel])

/-- Witness for C9 at the concrete cancellation of `demoPending`. -/
theorem updateSettlementStatus_frame_witness :
    ({ demoPending with status := SettlementStatus.cancelled } : Settlement).fromUser
        = demoPending.fromUser
    ∧ ({ demoPending with status := SettlementStatus.cancelled } : Settlement).toUser
        = demoPending.toUser
    ∧ ({ demoPending with status := SettlementStatus.cancelled } : Settlement).amount
        = demoPending.amount
    ∧ ({ demoPending with status := SettlementStatus.cancelled } : Settlement).group
        = demoPending.group :=
  updateSettlementStatus_frame demoPending "A" cancelBody 5
    { demoPending with status := SettlementStatus.cancelled }
    (by norm_num [updateSettlementStatus, demoPending, cancelBody, Settlement.cancel])

/-! ## C10 — mark-split-as-paid leaves `isPaid` unchanged -/

/-- C10: a successful `markSplitAsPaid` through the expense controller
leaves the `isPaid` field of every split unchanged: the handler assigns
the non-schema property `paid`, not the schema field `isPaid`, while
still reporting success. -/
theorem markSplitAsPaid_preserves_isPaid (e : Expense) (userId : String)
    (e2 : Expense) (h : markSplitAsPaid e userId = Except.ok e2) :
    e2.splits.map SplitRecord.isPaid = e.splits.map SplitRecord.isPaid := by
  rw [markSplitAsPaid] at h
  cases hf : e.splits.find? (fun s => s.user = userId) with
  | none => rw [hf] at h; exact Except.noConfusion h
  | some s0 =>
      rw [hf] at h
      simp only [Except.ok.injEq] at h
      subst h
      simp [setPaidOnFirst_map_isPaid]

/-- Witness for C10: marking `A`'s split of `expense300` as paid
succeeds and leaves all `isPaid` flags as they were. -/
theorem markSplitAsPaid_preserves_isPaid_witness :
    (expense300PaidA).splits.map SplitRecord.isPaid =
      expense300.splits.map SplitRecord.isPaid :=
  markSplitAsPaid_preserves_isPaid expense300 "A" expense300PaidA
    (by norm_num [markSplitAsPaid, expense300, expense300PaidA, setPaidOnFirst,
      List.find?])

end AspireSplitwise
